import Mathlib

/-!
# Verification of the `downplanet` client (src/downplanet)

Shallow embedding of the parts of `common.py` and `planetary.py` that the
frozen claims are about: geometry construction (`create_geometry`), the
recursive directory removal (`rm_tree`), the item signer (`sign_item`), the
per-asset streaming download (`download_asset`) and the download
orchestrator (`DownPlanet.download`), together with the date-range string
built by `DownPlanet.search`.

Python conventions mapped to Lean:
* coordinates are compared only for equality, so a coordinate pair is
  modelled as `Int × Int` (no coordinate arithmetic occurs in the code);
* code that can raise an exception is modelled with `Except String`;
* the filesystem is a path-set model (`FS`): the set of existing
  directories and the set of existing files with their sizes;
* log output (`logger.warning`, `logger.error`, `print`) is returned
  explicitly as lists of message strings.
-/

deriving instance DecidableEq for Except

namespace DownPlanet

/-- A coordinate pair `(long, lat)`.  The source only ever compares
coordinates for equality (`pts[0] != pts[-1]`), so an exact pair type is a
faithful model. -/
abbrev Coord := Int × Int

/-- A geojson geometry as used by `common.create_geometry`: either a
`Point` with one position or a `Polygon` with a list of linear rings. -/
inductive Geometry where
  | point (coordinates : Coord)
  | polygon (coordinates : List (List Coord))
deriving DecidableEq, Repr

/-- Validity of one linear ring, following the geojson package: a ring
must contain at least 4 positions and its first and last position must
coincide. -/
def ringValid (ring : List Coord) : Bool :=
  decide (4 ≤ ring.length) && decide (ring.head? = ring.getLast?)

/-- `geometry.is_valid` of the geojson package: a point with a coordinate
pair is always valid; a polygon is valid when every ring is. -/
def Geometry.is_valid : Geometry → Bool
  | .point _ => true
  | .polygon rings => rings.all ringValid

/-- `Geometry.is_valid` as a plain Bool test used below. -/
def Geometry.isPoint : Geometry → Bool
  | .point _ => true
  | .polygon _ => false

/-- The three input shapes `create_geometry` dispatches on:
a tuple (one coordinate pair), an already built geometry, or a list of
coordinate pairs. -/
inductive GeomInput where
  | tuple (pt : Coord)
  | geom (g : Geometry)
  | list (pts : List Coord)
deriving DecidableEq, Repr

/-- First phase of `create_geometry` (common.py, lines 10-21): build the
geometry from the input, closing the ring of a list input when its first
and last element differ (`pts.append(pts[0])`).  The second component is
the caller's list after the call (the Python code mutates it in place);
it is `none` for the non-list inputs.  An empty list raises `IndexError`
at `pts[0]`, modelled as `Except.error`. -/
def build_geometry : GeomInput → Except String (Geometry × Option (List Coord))
  | .tuple pt => .ok (.point pt, none)
  | .geom g => .ok (g, none)
  | .list [] => .error "IndexError: list index out of range"
  | .list (h :: t) =>
      let pts := h :: t
      let pts2 := if some h = pts.getLast? then pts else pts ++ [h]
      .ok (.polygon [pts2], some pts2)

/-- Everything observable about one `create_geometry` call: the returned
geometry (`none` on validity failure — the Python function falls off the
end), the caller's list after the call, and the diagnostics sent to the
logger respectively to standard output. -/
structure GeomResult where
  geometry : Option Geometry
  ptsAfter : Option (List Coord)
  loggerMsgs : List String
  printedMsgs : List String
deriving DecidableEq, Repr

/-- The diagnostic emitted on validity failure. -/
def invalidMsg : String :=
  "Informed points do not correspond to a valid polygon."

/-- `common.create_geometry(pts, logger)`: build the geometry, return it
when it is valid, otherwise log (or print, when no logger was supplied)
the diagnostic and return `None`. -/
def create_geometry (input : GeomInput) (hasLogger : Bool) :
    Except String GeomResult :=
  match build_geometry input with
  | .error e => .error e
  | .ok (g, after) =>
      if g.is_valid then
        .ok ⟨some g, after, [], []⟩
      else
        .ok ⟨none, after,
             if hasLogger then [invalidMsg] else [],
             if hasLogger then [] else [invalidMsg]⟩

/-- Whether a `create_geometry` call returned a point geometry. -/
def resultIsPoint (r : Except String GeomResult) : Bool :=
  match r with
  | .ok res =>
      match res.geometry with
      | some g => g.isPoint
      | none => false
  | .error _ => false

/-! ## Filesystem model -/

/-- A filesystem path, as a list of components relative to the root. -/
abbrev Path := List String

/-- Whether `p` lies at or below `root` (`root` is an initial segment of
`p`).  `rm_tree root` removes exactly the paths satisfying this. -/
def pathUnder (root p : Path) : Bool :=
  root.isPrefixOf p

/-- Path-set filesystem model: the existing directories and the existing
files, a file carrying its size in bytes. -/
structure FS where
  dirs : List Path
  files : List (Path × Nat)
deriving DecidableEq, Repr

/-- `Path.exists()` of pathlib: the path is an existing directory or an
existing file. -/
def FS.existsPath (fs : FS) (p : Path) : Bool :=
  fs.dirs.contains p || fs.files.any (fun q => q.1 == p)

/-- `common.rm_tree(pth)` (common.py, lines 37-44): unlink every file
below `pth`, recurse into every subdirectory, finally `pth.rmdir()`.  Its
net effect on the path-set model is the removal of every file and every
directory lying at or below `pth`, `pth` itself included. -/
def rm_tree (fs : FS) (pth : Path) : FS :=
  { dirs := fs.dirs.filter (fun d => !(pathUnder pth d)),
    files := fs.files.filter (fun q => !(pathUnder pth q.1)) }

/-- `out_dir.mkdir(exist_ok=True)`: create the directory; an already
existing directory is not an error. -/
def mkdir (fs : FS) (p : Path) : FS :=
  if fs.dirs.contains p then fs else { fs with dirs := fs.dirs ++ [p] }

/-- `open(file_path, 'wb')` followed by the chunk writes: the file at `p`
ends up existing with `n` bytes, replacing a previous file at the same
path. -/
def writeFile (fs : FS) (p : Path) (n : Nat) : FS :=
  { fs with files := fs.files.filter (fun q => !(q.1 == p)) ++ [(p, n)] }

/-! ## HTTP and streaming model -/

/-- A GET response: its status success flag (`r.ok`) and the length of
its body in bytes. -/
structure GetResp where
  ok : Bool
  bodyLen : Nat
deriving DecidableEq, Repr

/-- The chunk sizes `r.iter_content(chunk_size=1024)` yields for a body
of `n` bytes: `n / 1024` full chunks of 1024 bytes followed by the
remainder when it is not zero. -/
def chunkSizes (n : Nat) : List Nat :=
  List.replicate (n / 1024) 1024 ++ (if n % 1024 = 0 then [] else [n % 1024])

/-- The chunk-writing loop of `download_asset` (planetary.py, lines
166-172): for every truthy (non-empty) chunk, write it and flush, then
`pbar.update(1024)` — the update amount is the fixed chunk size, not the
length of the chunk just written.  Returns (bytes written, progress-bar
total). -/
def write_chunks : List Nat → Nat → Nat → Nat × Nat
  | [], written, p => (written, p)
  | c :: rest, written, p =>
      if c = 0 then write_chunks rest written p
      else write_chunks rest (written + c) (p + 1024)

/-- Split a character list at every occurrence of `c` (the pieces keep
their order, separators dropped); the kernel-reducible core of the
string splitting used below. -/
def splitChar (c : Char) : List Char → List (List Char)
  | [] => [[]]
  | x :: xs =>
      let r := splitChar c xs
      if x = c then [] :: r
      else
        match r with
        | [] => [[x]]
        | y :: ys => (x :: y) :: ys

/-- Split a string at every occurrence of the character `c`. -/
def splitOnChar (c : Char) (s : String) : List String :=
  (splitChar c s.data).map (fun l => String.mk l)

/-- `Path(urlparse(href).path).name`: the final `/`-separated segment of
the URL path, the query string (everything from the first `?`) stripped
first. -/
def fileNameOf (href : String) : String :=
  (splitOnChar '/' ((splitOnChar '?' href).headD "")).getLastD ""

/-- The external world a download interacts with: the signing service
(`planetary_computer.sign` on one href) and the HTTP transport (HEAD
content-length probing and GET). -/
structure Net where
  sign : String → String
  head : String → Option Nat
  get : String → GetResp

/-! ## Items, assets, signing -/

/-- One downloadable asset: an access URL and a human-readable title. -/
structure Asset where
  href : String
  title : String
deriving DecidableEq, Repr

/-- One catalog item: an identifier and its named assets. -/
structure Item where
  id : String
  assets : List (String × Asset)
deriving DecidableEq, Repr

/-- A signed item as returned by `sign_item`: the item with every asset
href rewritten plus the computed `.size` member. -/
structure SignedItem where
  id : String
  assets : List (String × Asset)
  size : Nat
deriving DecidableEq, Repr

/-- The size-accumulation loop of `sign_item` (planetary.py, lines
188-194): one HEAD request per signed asset,
`total_size += int(r.headers.get('content-length'))`.  A response
without a content-length header makes `int(None)` raise `TypeError`,
modelled as `Except.error`; the loop stops there. -/
def total_sizes (head : String → Option Nat) : List Asset → Except String Nat
  | [] => .ok 0
  | a :: rest =>
      match head a.href with
      | none => .error "TypeError: int() argument cannot be NoneType"
      | some n =>
          match total_sizes head rest with
          | .error e => .error e
          | .ok m => .ok (n + m)

/-- `DownPlanet.sign_item(item, session)`: sign the whole item (every
asset href passes through the signing service), then HEAD every signed
asset and sum the content lengths into `.size`. -/
def sign_item (pcSign : String → String) (head : String → Option Nat)
    (item : Item) : Except String SignedItem :=
  let signedAssets :=
    item.assets.map (fun p => (p.1, { p.2 with href := pcSign p.2.href }))
  match total_sizes head (signedAssets.map (fun p => p.2)) with
  | .error e => .error e
  | .ok n => .ok ⟨item.id, signedAssets, n⟩

/-! ## Per-asset download and the orchestrator -/

/-- The running state of the per-asset download loop: the filesystem,
the errors logged so far, the progress-bar count, and — as bookkeeping
mirroring the file writes — the list of (path, size) files this run has
written. -/
structure DLState where
  fs : FS
  errors : List String
  pbar : Nat
  written : List (Path × Nat)
deriving DecidableEq, Repr

/-- `DownPlanet.download_asset(asset, out_dir, session, pbar, sign)`
(planetary.py, lines 137-172): optionally sign the href, GET it
streaming; on a non-success status log `Error getting {href}` and return
(no file is touched); otherwise write the body chunk-by-chunk to
`out_dir / Path(urlparse(asset.href).path).name` — note the file name
comes from `asset.href`, the GET from the possibly re-signed `href`. -/
def download_asset (net : Net) (asset : Asset) (out_dir : Path)
    (s : DLState) (signFlag : Bool) : DLState :=
  let href := if signFlag then net.sign asset.href else asset.href
  let r := net.get href
  if r.ok = false then
    { s with errors := s.errors ++ ["Error getting " ++ href] }
  else
    let fpath := out_dir ++ [fileNameOf asset.href]
    let wp := write_chunks (chunkSizes r.bodyLen) 0 0
    { fs := writeFile s.fs fpath wp.1,
      errors := s.errors,
      pbar := s.pbar + wp.2,
      written := s.written ++ [(fpath, wp.1)] }

/-- The asset loop of `download` (planetary.py, lines 132-135): call
`download_asset` on every named asset of the signed item in order, with
`sign=False` (the assets are already signed). -/
def download_loop (net : Net) (out_dir : Path) :
    List (String × Asset) → DLState → DLState
  | [], s => s
  | (_, a) :: rest, s =>
      download_loop net out_dir rest (download_asset net a out_dir s false)

/-- The client state `download` consults: the result table of the last
search, `None` before any search, otherwise the index/item rows (the
metadata properties play no role in `download` and are omitted). -/
structure DPState where
  search_df : Option (List (String × Item))
deriving Repr

/-- `idx in self.search_df.index` / `self.search_df.loc[idx, 'item']`:
look the item up by its index value. -/
def lookupItem (idx : String) (df : List (String × Item)) : Option Item :=
  (df.find? (fun p => p.1 == idx)).map (fun p => p.2)

/-- Everything observable about one `download` call: the filesystem
afterwards, the warnings and errors logged, the progress-bar count, the
files this run wrote, and the uncaught exception if one escaped. -/
structure DownOut where
  fs : FS
  warnings : List String
  errors : List String
  pbar : Nat
  written : List (Path × Nat)
  exc : Option String
deriving DecidableEq, Repr

/-- `DownPlanet.download(idx, out_dir)` (planetary.py, lines 92-135):
three precondition checks, each logging a warning and returning; then
the per-item directory `out_dir / (item.id + '.PC')` is prepared
(`rm_tree` when it already exists, then `mkdir`), the item is signed
(an exception from `sign_item` propagates), and every asset is
downloaded in turn. -/
def download (st : DPState) (net : Net) (idx : String) (out_dir : Path)
    (fs : FS) : DownOut :=
  match st.search_df with
  | none =>
      ⟨fs, ["No search dataframe (.search_df). Do a search first."],
       [], 0, [], none⟩
  | some df =>
      match lookupItem idx df with
      | none =>
          ⟨fs, ["id not found in search dataframe (.search_df)"],
           [], 0, [], none⟩
      | some item =>
          if fs.existsPath out_dir = false then
            ⟨fs, ["Output directory does not exists. Create it first."],
             [], 0, [], none⟩
          else
            let target := out_dir ++ [item.id ++ ".PC"]
            let fs1 := if fs.existsPath target then rm_tree fs target else fs
            let fs2 := mkdir fs1 target
            match sign_item net.sign net.head item with
            | .error e => ⟨fs2, [], [], 0, [], some e⟩
            | .ok signed =>
                let s := download_loop net target signed.assets ⟨fs2, [], 0, []⟩
                ⟨s.fs, [], s.errors, s.pbar, s.written, none⟩

/-! ## Date-range handling of `search` -/

/-- The date-range string built by `DownPlanet.search` (planetary.py,
line 57): `start_date + '/' + end_date` when an end date is given,
otherwise the bare start token. -/
def date_range (start_date : String) (end_date : Option String) : String :=
  match end_date with
  | some e => start_date ++ "/" ++ e
  | none => start_date

/-- Gregorian leap-year test. -/
def isLeap (y : Nat) : Bool :=
  (y % 4 == 0 && y % 100 != 0) || y % 400 == 0

/-- Number of days of month `m` of year `y`. -/
def daysInMonth (y m : Nat) : Nat :=
  if m = 2 then (if isLeap y then 29 else 28)
  else if m = 4 || m = 6 || m = 9 || m = 11 then 30
  else 31

/-- Parse a run of decimal digits; `none` when a non-digit occurs. -/
def digitsToNat (l : List Char) : Option Nat :=
  l.foldl
    (fun acc c =>
      match acc with
      | none => none
      | some n => if c.isDigit then some (n * 10 + (c.toNat - 48)) else none)
    (some 0)

/-- Parse a decimal string. -/
def strToNat (s : String) : Option Nat := digitsToNat s.data

/-- Render a two-digit number (the last day of a month is always between
28 and 31). -/
def twoDigits (n : Nat) : String :=
  String.mk [Char.ofNat (48 + n / 10), Char.ofNat (48 + n % 10)]

/-- Modelled from the spec: the expansion the external catalog client
(pystac-client, outside this repository) applies to a single date token,
as documented in the `DownPlanet.search` docstring —
`2017` expands to `2017-01-01T00:00:00Z/2017-12-31T23:59:59Z`,
`2017-06` to `2017-06-01T00:00:00Z/2017-06-30T23:59:59Z`,
`2017-06-10` to `2017-06-10T00:00:00Z/2017-06-10T23:59:59Z`. -/
def expand_datetime (token : String) : String :=
  match splitOnChar '-' token with
  | [y] => y ++ "-01-01T00:00:00Z/" ++ y ++ "-12-31T23:59:59Z"
  | [y, m] =>
      let last := daysInMonth ((strToNat y).getD 0) ((strToNat m).getD 0)
      y ++ "-" ++ m ++ "-01T00:00:00Z/" ++
        y ++ "-" ++ m ++ "-" ++ twoDigits last ++ "T23:59:59Z"
  | [y, m, d] =>
      y ++ "-" ++ m ++ "-" ++ d ++ "T00:00:00Z/" ++
        y ++ "-" ++ m ++ "-" ++ d ++ "T23:59:59Z"
  | _ => token

/-- Modelled from the spec: the date parameter of the query the catalog
client issues — a single token is expanded, an explicit `start/end`
range is passed along as such. -/
def catalog_datetime (dr : String) : String :=
  if (splitOnChar '/' dr).length ≤ 1 then expand_datetime dr else dr

/-! ## Theorems: geometry construction (claims C5, C6, C7, C10) -/

/-- The last element of a list with one element appended. -/
theorem getLast?_append_singleton {α : Type} (l : List α) (a : α) :
    (l ++ [a]).getLast? = some a := by
  rw [List.getLast?_concat]

/-- `create_geometry` after a successful `build_geometry`, split on the
validity check. -/
theorem create_geometry_eq (input : GeomInput) (b : Bool) (g : Geometry)
    (after : Option (List Coord))
    (hb : build_geometry input = .ok (g, after)) :
    create_geometry input b =
      if g.is_valid then .ok ⟨some g, after, [], []⟩
      else .ok ⟨none, after,
        if b then [invalidMsg] else [],
        if b then [] else [invalidMsg]⟩ := by
  unfold create_geometry
  rw [hb]

/-- C5: for every list input whose first element differs from its last,
`create_geometry` builds the polygon from the ring `pts ++ [pts[0]]`,
whose first and last points are equal, and leaves exactly that ring in
the caller's list. -/
theorem create_geometry_closes_ring (c : Coord) (cs : List Coord) (b : Bool)
    (hne : (c :: cs).getLast? ≠ some c) :
    build_geometry (.list (c :: cs)) =
      .ok (.polygon [(c :: cs) ++ [c]], some ((c :: cs) ++ [c])) ∧
    (∃ r, create_geometry (.list (c :: cs)) b = .ok r ∧
      r.ptsAfter = some ((c :: cs) ++ [c])) ∧
    ((c :: cs) ++ [c]).head? = ((c :: cs) ++ [c]).getLast? := by
  have hcond : (some c = (c :: cs).getLast?) = False := by
    simp only [eq_iff_iff, iff_false]
    exact fun h => hne h.symm
  have hbuild : build_geometry (.list (c :: cs)) =
      .ok (.polygon [(c :: cs) ++ [c]], some ((c :: cs) ++ [c])) := by
    simp [build_geometry, hcond]
  have hce := create_geometry_eq (.list (c :: cs)) b _ _ hbuild
  refine ⟨hbuild, ?_, ?_⟩
  · cases hv : (Geometry.polygon [(c :: cs) ++ [c]]).is_valid with
    | true =>
        rw [hv, if_pos rfl] at hce
        exact ⟨_, hce, rfl⟩
    | false =>
        rw [hv] at hce
        rw [if_neg (by simp)] at hce
        exact ⟨_, hce, rfl⟩
  · rw [getLast?_append_singleton]
    rfl

/-- Witness for C5 at the open ring [(0,0), (2,0), (2,2)]. -/
theorem create_geometry_closes_ring_witness :
    ((((0 : Int), (0 : Int)) :: [((2 : Int), (0 : Int)), ((2 : Int), (2 : Int))]).getLast?
        ≠ some ((0 : Int), (0 : Int))) ∧
    (∃ r, create_geometry
        (.list [((0 : Int), (0 : Int)), ((2 : Int), (0 : Int)), ((2 : Int), (2 : Int))]) true = .ok r ∧
      r.ptsAfter = some [((0 : Int), (0 : Int)), ((2 : Int), (0 : Int)),
        ((2 : Int), (2 : Int)), ((0 : Int), (0 : Int))]) := by
  refine ⟨by decide, ?_⟩
  exact (create_geometry_closes_ring ((0 : Int), (0 : Int))
    [((2 : Int), (0 : Int)), ((2 : Int), (2 : Int))] true (by decide)).2.1

/-- C6: whenever the built geometry fails the validity check,
`create_geometry` returns normally (no exception) with an absent
geometry, logging the diagnostic through the logger when one was
supplied and printing it otherwise. -/
theorem create_geometry_invalid_soft_fail (input : GeomInput) (b : Bool)
    (g : Geometry) (after : Option (List Coord))
    (hb : build_geometry input = .ok (g, after))
    (hv : g.is_valid = false) :
    create_geometry input b =
      .ok ⟨none, after,
        if b then [invalidMsg] else [],
        if b then [] else [invalidMsg]⟩ := by
  simp [create_geometry, hb, hv]

/-- Witness for C6: a two-point open ring closes to a 3-position ring,
which is an invalid polygon; with a logger supplied the diagnostic goes
to the logger and the call returns `None`. -/
theorem create_geometry_invalid_soft_fail_witness :
    build_geometry (.list [((0 : Int), (0 : Int)), ((1 : Int), (1 : Int))]) =
      .ok (.polygon [[((0 : Int), (0 : Int)), ((1 : Int), (1 : Int)), ((0 : Int), (0 : Int))]],
        some [((0 : Int), (0 : Int)), ((1 : Int), (1 : Int)), ((0 : Int), (0 : Int))]) ∧
    create_geometry (.list [((0 : Int), (0 : Int)), ((1 : Int), (1 : Int))]) true =
      .ok ⟨none, some [((0 : Int), (0 : Int)), ((1 : Int), (1 : Int)), ((0 : Int), (0 : Int))],
        [invalidMsg], []⟩ := by
  refine ⟨by decide, ?_⟩
  have h := create_geometry_invalid_soft_fail
    (.list [((0 : Int), (0 : Int)), ((1 : Int), (1 : Int))]) true
    (.polygon [[((0 : Int), (0 : Int)), ((1 : Int), (1 : Int)), ((0 : Int), (0 : Int))]])
    (some [((0 : Int), (0 : Int)), ((1 : Int), (1 : Int)), ((0 : Int), (0 : Int))])
    (by decide) (by decide)
  simpa using h

/-- Counterexample to C7: the single coordinate pair (10, 45) passed as
a one-element list does not yield a point geometry — the list goes down
the polygon branch and the resulting one-position ring is invalid, so
the call returns an absent geometry. -/
theorem single_pair_list_not_point_cex :
    resultIsPoint (create_geometry (.list [((10 : Int), (45 : Int))]) true) = false ∧
    create_geometry (.list [((10 : Int), (45 : Int))]) true =
      .ok ⟨none, some [((10 : Int), (45 : Int))], [invalidMsg], []⟩ := by
  constructor <;> decide

/-- C7 as amended: a single coordinate pair yields a point geometry only
when it is passed as a tuple; passed as a one-element list it is treated
as a polygon ring, which fails validity, so the result is absent and in
particular not a point. -/
theorem single_pair_point_amended (pt : Coord) (b : Bool) :
    create_geometry (.tuple pt) b = .ok ⟨some (.point pt), none, [], []⟩ ∧
    (∃ r, create_geometry (.list [pt]) b = .ok r ∧ r.geometry = none) := by
  constructor
  · simp [create_geometry, build_geometry, Geometry.is_valid]
  · exact ⟨⟨none, some [pt], if b then [invalidMsg] else [],
      if b then [] else [invalidMsg]⟩,
      by simp [create_geometry, build_geometry, Geometry.is_valid, ringValid], rfl⟩

/-- C10: for every list input whose first element differs from its last,
the caller's list is mutated in place: afterwards it is the original
list with the first element appended, one element longer, and in
particular not the list the caller passed in. -/
theorem create_geometry_mutates_input (c : Coord) (cs : List Coord) (b : Bool)
    (hne : (c :: cs).getLast? ≠ some c) :
    ∃ r, create_geometry (.list (c :: cs)) b = .ok r ∧
      r.ptsAfter = some ((c :: cs) ++ [c]) ∧
      ((c :: cs) ++ [c]).length = (c :: cs).length + 1 ∧
      (c :: cs) ++ [c] ≠ c :: cs := by
  obtain ⟨-, ⟨r, hr, hafter⟩, -⟩ := create_geometry_closes_ring c cs b hne
  refine ⟨r, hr, hafter, by simp, ?_⟩
  intro h
  have := congrArg List.length h
  simp at this

/-- Witness for C10 at the open ring [(0,0), (5,5)]. -/
theorem create_geometry_mutates_input_witness :
    (([((0 : Int), (0 : Int)), ((5 : Int), (5 : Int))]).getLast?
        ≠ some ((0 : Int), (0 : Int))) ∧
    (∃ r, create_geometry (.list [((0 : Int), (0 : Int)), ((5 : Int), (5 : Int))]) false = .ok r ∧
      r.ptsAfter = some [((0 : Int), (0 : Int)), ((5 : Int), (5 : Int)), ((0 : Int), (0 : Int))] ∧
      ([((0 : Int), (0 : Int)), ((5 : Int), (5 : Int)), ((0 : Int), (0 : Int))]).length =
        ([((0 : Int), (0 : Int)), ((5 : Int), (5 : Int))]).length + 1 ∧
      [((0 : Int), (0 : Int)), ((5 : Int), (5 : Int)), ((0 : Int), (0 : Int))] ≠
        [((0 : Int), (0 : Int)), ((5 : Int), (5 : Int))]) := by
  exact ⟨by decide, create_geometry_mutates_input ((0 : Int), (0 : Int))
    [((5 : Int), (5 : Int))] false (by decide)⟩

/-! ## Theorems: date-range expansion (claim C8) -/

/-- C8: a `search` call with start token "2021-06" and no end date sends
the bare token as its date range, and the catalog client expands it to
the full month of June 2021 in UTC. -/
theorem search_june_2021_datetime :
    date_range "2021-06" none = "2021-06" ∧
    catalog_datetime (date_range "2021-06" none) =
      "2021-06-01T00:00:00Z/2021-06-30T23:59:59Z" := by
  constructor <;> decide

/-! ## Theorems: progress-bar accounting (claim C9) -/

/-- `write_chunks` over `k` full chunks followed by `rest`. -/
theorem write_chunks_replicate (k : Nat) (rest : List Nat) (w p : Nat) :
    write_chunks (List.replicate k 1024 ++ rest) w p =
      write_chunks rest (w + 1024 * k) (p + 1024 * k) := by
  induction k generalizing w p with
  | zero => simp [write_chunks]
  | succ k ih =>
      rw [List.replicate_succ, List.cons_append]
      show write_chunks (1024 :: (List.replicate k 1024 ++ rest)) w p = _
      rw [write_chunks]
      simp only [if_neg (by omega : ¬ (1024 : Nat) = 0)]
      rw [ih]
      ring_nf

/-- The chunk loop writes exactly the body and advances the progress
bar by 1024 per chunk. -/
theorem write_chunks_chunkSizes (n : Nat) :
    write_chunks (chunkSizes n) 0 0 = (n, 1024 * (chunkSizes n).length) := by
  unfold chunkSizes
  by_cases h : n % 1024 = 0
  · rw [if_pos h, write_chunks_replicate, write_chunks]
    have := Nat.div_add_mod n 1024
    simp [Prod.ext_iff]
    omega
  · rw [if_neg h, write_chunks_replicate, write_chunks, if_neg h, write_chunks]
    have := Nat.div_add_mod n 1024
    simp [Prod.ext_iff]
    omega

/-- Counterexample to C9: a successfully fetched 1500-byte body is
written as chunks of 1024 and 476 bytes, but the progress bar is
advanced by 1024 for each chunk, totalling 2048 — not the 1500 bytes
actually written to the file. -/
theorem download_asset_pbar_overcount_cex :
    chunkSizes 1500 = [1024, 476] ∧
    (download_asset
        ⟨fun s => s, fun _ => none, fun _ => ⟨true, 1500⟩⟩
        ⟨"https://h/a/b.tif", "B"⟩ ["out"]
        ⟨⟨[["out"]], []⟩, [], 0, []⟩ false).written =
      [(["out", "b.tif"], 1500)] ∧
    (download_asset
        ⟨fun s => s, fun _ => none, fun _ => ⟨true, 1500⟩⟩
        ⟨"https://h/a/b.tif", "B"⟩ ["out"]
        ⟨⟨[["out"]], []⟩, [], 0, []⟩ false).pbar = 2048 ∧
    (2048 : Nat) ≠ 1500 := by
  refine ⟨by decide, by decide, by decide, by decide⟩

/-- C9 as amended: after each non-empty chunk the progress bar advances
by the fixed chunk size 1024 (not by the bytes of that chunk), so a
successful asset download writes `bodyLen` bytes but advances the bar by
`1024 * number of chunks`. -/
theorem download_asset_fixed_pbar_increment (net : Net) (asset : Asset)
    (out_dir : Path) (s : DLState)
    (hok : (net.get asset.href).ok = true) :
    download_asset net asset out_dir s false =
      { fs := writeFile s.fs (out_dir ++ [fileNameOf asset.href])
          (net.get asset.href).bodyLen,
        errors := s.errors,
        pbar := s.pbar + 1024 * (chunkSizes (net.get asset.href).bodyLen).length,
        written := s.written ++
          [(out_dir ++ [fileNameOf asset.href], (net.get asset.href).bodyLen)] } := by
  simp [download_asset, hok, write_chunks_chunkSizes]

/-- Witness for C9's amended theorem: a 2048-byte body at a concrete
asset — two full chunks, 2048 bytes written, progress 2048. -/
theorem download_asset_fixed_pbar_increment_witness :
    ((Net.mk (fun s => s) (fun _ => none) (fun _ => ⟨true, 2048⟩)).get
        (Asset.mk "https://h/x/c.tif" "C").href).ok = true ∧
    download_asset
        (Net.mk (fun s => s) (fun _ => none) (fun _ => ⟨true, 2048⟩))
        (Asset.mk "https://h/x/c.tif" "C") ["o"]
        ⟨⟨[["o"]], []⟩, [], 0, []⟩ false =
      { fs := writeFile (FS.mk [["o"]] []) (["o"] ++ [fileNameOf "https://h/x/c.tif"]) 2048,
        errors := [],
        pbar := 0 + 1024 * (chunkSizes 2048).length,
        written := [] ++ [(["o"] ++ [fileNameOf "https://h/x/c.tif"], 2048)] } := by
  exact ⟨rfl, download_asset_fixed_pbar_increment
    (Net.mk (fun s => s) (fun _ => none) (fun _ => ⟨true, 2048⟩))
    (Asset.mk "https://h/x/c.tif" "C") ["o"]
    ⟨⟨[["o"]], []⟩, [], 0, []⟩ rfl⟩

/-! ## Theorems: a failing asset is skipped, siblings continue (claim C3) -/

/-- The asset loop over a concatenation runs the first part and then the
second, threading the state. -/
theorem download_loop_append (net : Net) (out_dir : Path)
    (l1 l2 : List (String × Asset)) (s : DLState) :
    download_loop net out_dir (l1 ++ l2) s =
      download_loop net out_dir l2 (download_loop net out_dir l1 s) := by
  induction l1 generalizing s with
  | nil => rfl
  | cons p rest ih =>
      obtain ⟨nm, a⟩ := p
      rw [List.cons_append, download_loop, download_loop, ih]

/-- C3: a GET with a non-success status makes `download_asset` log an
error and change nothing else — no file is written, the filesystem and
the progress bar are untouched — and the surrounding loop still runs
every remaining sibling asset on the state so obtained. -/
theorem download_loop_skip_failed_asset (net : Net) (out_dir : Path)
    (pre post : List (String × Asset)) (nm : String) (a : Asset)
    (s : DLState) (hfail : (net.get a.href).ok = false) :
    (∀ t : DLState, download_asset net a out_dir t false =
      { t with errors := t.errors ++ ["Error getting " ++ a.href] }) ∧
    download_loop net out_dir (pre ++ (nm, a) :: post) s =
      download_loop net out_dir post
        { download_loop net out_dir pre s with
          errors := (download_loop net out_dir pre s).errors ++
            ["Error getting " ++ a.href] } := by
  have hstep : ∀ t : DLState, download_asset net a out_dir t false =
      { t with errors := t.errors ++ ["Error getting " ++ a.href] } := by
    intro t
    simp [download_asset, hfail]
  refine ⟨hstep, ?_⟩
  rw [download_loop_append, download_loop, hstep]

/-- Witness for C3: two assets, the first GET returns a failure status,
the second succeeds; the failed asset contributes only an error message
and the sibling is still downloaded. -/
theorem download_loop_skip_failed_asset_witness :
    ((Net.mk (fun s => s) (fun _ => none)
        (fun h => if h == "https://h/bad.tif" then ⟨false, 0⟩ else ⟨true, 1024⟩)).get
      (Asset.mk "https://h/bad.tif" "bad").href).ok = false ∧
    download_loop
        (Net.mk (fun s => s) (fun _ => none)
          (fun h => if h == "https://h/bad.tif" then ⟨false, 0⟩ else ⟨true, 1024⟩))
        ["o"]
        ([] ++ ("b", Asset.mk "https://h/bad.tif" "bad") ::
          [("g", Asset.mk "https://h/good.tif" "good")])
        ⟨⟨[["o"]], []⟩, [], 0, []⟩ =
      download_loop
        (Net.mk (fun s => s) (fun _ => none)
          (fun h => if h == "https://h/bad.tif" then ⟨false, 0⟩ else ⟨true, 1024⟩))
        ["o"] [("g", Asset.mk "https://h/good.tif" "good")]
        { (⟨⟨[["o"]], []⟩, [], 0, []⟩ : DLState) with
          errors := ([] : List String) ++ ["Error getting " ++ "https://h/bad.tif"] } := by
  refine ⟨by decide, ?_⟩
  exact (download_loop_skip_failed_asset
    (Net.mk (fun s => s) (fun _ => none)
      (fun h => if h == "https://h/bad.tif" then ⟨false, 0⟩ else ⟨true, 1024⟩))
    ["o"] [] [("g", Asset.mk "https://h/good.tif" "good")]
    "b" (Asset.mk "https://h/bad.tif" "bad")
    ⟨⟨[["o"]], []⟩, [], 0, []⟩ (by decide)).2

/-! ## Theorems: the item signer and missing content-length (claim C4) -/

/-- When some asset in the list has no content-length header, the size
accumulation raises. -/
theorem total_sizes_error_of_none (head : String → Option Nat)
    (l : List Asset) (h : ∃ a ∈ l, head a.href = none) :
    ∃ e, total_sizes head l = .error e := by
  induction l with
  | nil => simp at h
  | cons a rest ih =>
      cases hh : head a.href with
      | none =>
          exact ⟨"TypeError: int() argument cannot be NoneType",
            by simp [total_sizes, hh]⟩
      | some n =>
          obtain ⟨x, hx, hxn⟩ := h
          rcases List.mem_cons.mp hx with rfl | hx'
          · rw [hh] at hxn
            exact absurd hxn (by simp)
          · obtain ⟨e, he⟩ := ih ⟨x, hx', hxn⟩
            exact ⟨e, by simp [total_sizes, hh, he]⟩

/-- When every asset in the list has a content-length header, the size
accumulation returns the sum of the lengths. -/
theorem total_sizes_ok_of_all (head : String → Option Nat)
    (l : List Asset) (h : ∀ a ∈ l, head a.href ≠ none) :
    total_sizes head l = .ok ((l.map (fun a => (head a.href).getD 0)).sum) := by
  induction l with
  | nil => simp [total_sizes]
  | cons a rest ih =>
      cases hh : head a.href with
      | none => exact absurd hh (h a (List.mem_cons_self a rest))
      | some n =>
          rw [total_sizes, hh, ih (fun x hx => h x (List.mem_cons_of_mem a hx))]
          simp [hh]

/-- C4: when any asset's HEAD response carries no content-length,
`sign_item` propagates an error (never returning normally with a zeroed
size); when every HEAD response carries one, it returns the signed item
whose `.size` is the sum of those content lengths. -/
theorem sign_item_content_length_spec (pcSign : String → String)
    (head : String → Option Nat) (item : Item) :
    ((∃ p ∈ item.assets, head (pcSign p.2.href) = none) →
      ∃ e, sign_item pcSign head item = .error e) ∧
    ((∀ p ∈ item.assets, head (pcSign p.2.href) ≠ none) →
      ∃ si, sign_item pcSign head item = .ok si ∧
        si.size = (item.assets.map
          (fun p => (head (pcSign p.2.href)).getD 0)).sum) := by
  have hassets :
      ((item.assets.map (fun p => (p.1, { p.2 with href := pcSign p.2.href }))).map
        (fun p => p.2)) =
      item.assets.map (fun p => { p.2 with href := pcSign p.2.href }) := by
    rw [List.map_map]
    rfl
  constructor
  · intro ⟨p, hp, hnone⟩
    obtain ⟨e, he⟩ := total_sizes_error_of_none head
      (item.assets.map (fun p => { p.2 with href := pcSign p.2.href }))
      ⟨{ p.2 with href := pcSign p.2.href }, List.mem_map_of_mem _ hp, hnone⟩
    exact ⟨e, by simp [sign_item, hassets, he]⟩
  · intro hall
    have hall' : ∀ a ∈ item.assets.map
        (fun p => { p.2 with href := pcSign p.2.href }), head a.href ≠ none := by
      intro a ha
      obtain ⟨p, hp, rfl⟩ := List.mem_map.mp ha
      exact hall p hp
    have hok := total_sizes_ok_of_all head
      (item.assets.map (fun p => { p.2 with href := pcSign p.2.href })) hall'
    refine ⟨⟨item.id,
      item.assets.map (fun p => (p.1, { p.2 with href := pcSign p.2.href })),
      ((item.assets.map (fun p => { p.2 with href := pcSign p.2.href })).map
        (fun a => (head a.href).getD 0)).sum⟩,
      by simp [sign_item, hassets, hok], ?_⟩
    rw [List.map_map]
    rfl

/-- Witness for C4: a two-asset item; with a HEAD oracle missing the
content-length of the second signed href the signer raises, with both
lengths present it returns size 10 + 20 = 30. -/
theorem sign_item_content_length_spec_witness :
    (∃ e, sign_item (fun s => s ++ "?sig")
        (fun h => if h == "https://h/1.tif?sig" then some 10 else none)
        ⟨"I", [("a1", ⟨"https://h/1.tif", "one"⟩),
               ("a2", ⟨"https://h/2.tif", "two"⟩)]⟩ = .error e) ∧
    (∃ si, sign_item (fun s => s ++ "?sig")
        (fun h => if h == "https://h/1.tif?sig" then some 10 else some 20)
        ⟨"I", [("a1", ⟨"https://h/1.tif", "one"⟩),
               ("a2", ⟨"https://h/2.tif", "two"⟩)]⟩ = .ok si ∧
      si.size = 30) := by
  constructor
  · exact (sign_item_content_length_spec (fun s => s ++ "?sig")
      (fun h => if h == "https://h/1.tif?sig" then some 10 else none)
      ⟨"I", [("a1", ⟨"https://h/1.tif", "one"⟩),
             ("a2", ⟨"https://h/2.tif", "two"⟩)]⟩).1
      ⟨("a2", ⟨"https://h/2.tif", "two"⟩), by decide, by decide⟩
  · obtain ⟨si, h1, h2⟩ := (sign_item_content_length_spec (fun s => s ++ "?sig")
      (fun h => if h == "https://h/1.tif?sig" then some 10 else some 20)
      ⟨"I", [("a1", ⟨"https://h/1.tif", "one"⟩),
             ("a2", ⟨"https://h/2.tif", "two"⟩)]⟩).2 (by decide)
    exact ⟨si, h1, h2.trans (by decide)⟩

/-! ## Theorems: download precondition checks (claim C1) -/

/-- C1: whenever a precondition of `download` fails — no prior search
result table, the identifier absent from it, or the output directory
not existing — the call returns normally (no exception), logs a warning,
and leaves the filesystem exactly as it was. -/
theorem download_precondition_no_fs_change (st : DPState) (net : Net)
    (idx : String) (out_dir : Path) (fs : FS)
    (h : st.search_df = none ∨
      (∀ df, st.search_df = some df → lookupItem idx df = none) ∨
      fs.existsPath out_dir = false) :
    (download st net idx out_dir fs).fs = fs ∧
    (download st net idx out_dir fs).exc = none ∧
    (download st net idx out_dir fs).warnings ≠ [] := by
  cases hdf : st.search_df with
  | none => simp [download, hdf]
  | some df =>
      cases hl : lookupItem idx df with
      | none => simp [download, hdf, hl]
      | some item =>
          have hout : fs.existsPath out_dir = false := by
            rcases h with h1 | h2 | h3
            · rw [hdf] at h1
              exact absurd h1 (by simp)
            · have h4 := h2 df hdf
              rw [hl] at h4
              exact absurd h4 (by simp)
            · exact h3
          simp [download, hdf, hl, hout]

/-- Witness for C1: `download` on a client that has never searched
leaves an empty filesystem untouched and only warns. -/
theorem download_precondition_no_fs_change_witness :
    (download ⟨none⟩ ⟨fun s => s, fun _ => none, fun _ => ⟨false, 0⟩⟩
      "x" ["o"] ⟨[], []⟩).fs = ⟨[], []⟩ ∧
    (download ⟨none⟩ ⟨fun s => s, fun _ => none, fun _ => ⟨false, 0⟩⟩
      "x" ["o"] ⟨[], []⟩).exc = none ∧
    (download ⟨none⟩ ⟨fun s => s, fun _ => none, fun _ => ⟨false, 0⟩⟩
      "x" ["o"] ⟨[], []⟩).warnings ≠ [] :=
  download_precondition_no_fs_change ⟨none⟩
    ⟨fun s => s, fun _ => none, fun _ => ⟨false, 0⟩⟩
    "x" ["o"] ⟨[], []⟩ (Or.inl rfl)

/-! ## Theorems: per-item directory recreation (claim C2) -/

/-- Every file surviving `rm_tree fs t` lies outside `t`. -/
theorem mem_rm_tree_files {fs : FS} {t p : Path} {n : Nat}
    (h : (p, n) ∈ (rm_tree fs t).files) :
    (p, n) ∈ fs.files ∧ pathUnder t p = false := by
  have h2 := List.mem_filter.mp h
  refine ⟨h2.1, ?_⟩
  have h3 := h2.2
  simpa using h3

/-- Every directory surviving `rm_tree fs t` lies outside `t`. -/
theorem mem_rm_tree_dirs {fs : FS} {t d : Path}
    (h : d ∈ (rm_tree fs t).dirs) :
    d ∈ fs.dirs ∧ pathUnder t d = false := by
  have h2 := List.mem_filter.mp h
  refine ⟨h2.1, ?_⟩
  simpa using h2.2

/-- `mkdir` makes its path exist. -/
theorem mkdir_self_mem (fs : FS) (p : Path) : p ∈ (mkdir fs p).dirs := by
  unfold mkdir
  by_cases h : fs.dirs.contains p
  · rw [if_pos h]
    exact List.mem_of_elem_eq_true h
  · rw [if_neg h]
    exact List.mem_append_right _ (List.mem_singleton.mpr rfl)

/-- A directory existing after `mkdir` existed before or is the one
created. -/
theorem mem_mkdir_dirs {fs : FS} {p d : Path}
    (h : d ∈ (mkdir fs p).dirs) : d ∈ fs.dirs ∨ d = p := by
  unfold mkdir at h
  by_cases hc : fs.dirs.contains p
  · rw [if_pos hc] at h
    exact Or.inl h
  · rw [if_neg hc] at h
    rcases List.mem_append.mp h with h1 | h2
    · exact Or.inl h1
    · exact Or.inr (List.mem_singleton.mp h2)

/-- `mkdir` never touches files. -/
theorem mkdir_files (fs : FS) (p : Path) : (mkdir fs p).files = fs.files := by
  unfold mkdir
  by_cases h : fs.dirs.contains p
  · rw [if_pos h]
  · rw [if_neg h]

/-- The invariant carried through the asset loop: every file below `t`
was written by this run (it is on the `written` list). -/
def FileInv (t : Path) (s : DLState) : Prop :=
  ∀ p n, (p, n) ∈ s.fs.files → pathUnder t p = true → (p, n) ∈ s.written

/-- One `download_asset` step preserves the invariant and never touches
directories. -/
theorem download_asset_preserves_inv (net : Net) (a : Asset) (d t : Path)
    (s : DLState) (hinv : FileInv t s) :
    FileInv t (download_asset net a d s false) ∧
    (download_asset net a d s false).fs.dirs = s.fs.dirs := by
  cases hok : (net.get a.href).ok with
  | false =>
      have hstep : download_asset net a d s false =
          { s with errors := s.errors ++ ["Error getting " ++ a.href] } := by
        simp [download_asset, hok]
      rw [hstep]
      exact ⟨hinv, rfl⟩
  | true =>
      have hstep : download_asset net a d s false =
          { fs := writeFile s.fs (d ++ [fileNameOf a.href])
              (write_chunks (chunkSizes (net.get a.href).bodyLen) 0 0).1,
            errors := s.errors,
            pbar := s.pbar +
              (write_chunks (chunkSizes (net.get a.href).bodyLen) 0 0).2,
            written := s.written ++ [(d ++ [fileNameOf a.href],
              (write_chunks (chunkSizes (net.get a.href).bodyLen) 0 0).1)] } := by
        simp [download_asset, hok]
      rw [hstep]
      constructor
      · intro p n hp hunder
        simp only [writeFile] at hp
        rcases List.mem_append.mp hp with h1 | h2
        · exact List.mem_append_left _ (hinv p n (List.mem_filter.mp h1).1 hunder)
        · exact List.mem_append_right _ h2
      · rfl

/-- The whole asset loop preserves the invariant and never touches
directories. -/
theorem download_loop_preserves_inv (net : Net) (d t : Path)
    (assets : List (String × Asset)) (s : DLState) (hinv : FileInv t s) :
    FileInv t (download_loop net d assets s) ∧
    (download_loop net d assets s).fs.dirs = s.fs.dirs := by
  induction assets generalizing s with
  | nil => exact ⟨hinv, rfl⟩
  | cons q rest ih =>
      obtain ⟨nm, a⟩ := q
      rw [download_loop]
      obtain ⟨h1, h2⟩ := download_asset_preserves_inv net a d t s hinv
      obtain ⟨h3, h4⟩ := ih _ h1
      exact ⟨h3, h4.trans h2⟩

/-- A path in the directory list exists. -/
theorem existsPath_of_mem_dirs {fs : FS} {p : Path} (h : p ∈ fs.dirs) :
    fs.existsPath p = true := by
  simp only [FS.existsPath, Bool.or_eq_true, List.contains_iff_exists_mem_beq]
  exact Or.inl ⟨p, h, by simp⟩

/-- `download` once its preconditions hold: directory preparation, then
signing, then the asset loop. -/
theorem download_eq_of_preconds (st : DPState) (net : Net) (idx : String)
    (out_dir : Path) (fs : FS) (df : List (String × Item)) (item : Item)
    (hdf : st.search_df = some df) (hl : lookupItem idx df = some item)
    (hout : fs.existsPath out_dir = true) :
    download st net idx out_dir fs =
      (let target := out_dir ++ [item.id ++ ".PC"]
       let fs1 := if fs.existsPath target then rm_tree fs target else fs
       let fs2 := mkdir fs1 target
       match sign_item net.sign net.head item with
       | .error e => ⟨fs2, [], [], 0, [], some e⟩
       | .ok signed =>
           let s := download_loop net target signed.assets ⟨fs2, [], 0, []⟩
           ⟨s.fs, [], s.errors, s.pbar, s.written, none⟩) := by
  simp only [download, hdf, hl, hout]
  rfl

/-- C2: with the preconditions satisfied and the per-item target
directory `out_dir / (item.id + '.PC')` already existing, after
`download` the target directory exists, every file below it was written
by this very run (no file from a previous run survives), and no other
directory below it remains. -/
theorem download_recreates_item_dir (st : DPState) (net : Net)
    (idx : String) (out_dir : Path) (fs : FS)
    (df : List (String × Item)) (item : Item) (target : Path)
    (hdf : st.search_df = some df) (hl : lookupItem idx df = some item)
    (hout : fs.existsPath out_dir = true)
    (htarget : target = out_dir ++ [item.id ++ ".PC"])
    (hpre : target ∈ fs.dirs) :
    target ∈ (download st net idx out_dir fs).fs.dirs ∧
    (∀ p n, (p, n) ∈ (download st net idx out_dir fs).fs.files →
      pathUnder target p = true →
      (p, n) ∈ (download st net idx out_dir fs).written) ∧
    (∀ d, d ∈ (download st net idx out_dir fs).fs.dirs →
      pathUnder target d = true → d = target) := by
  subst htarget
  have hdl := download_eq_of_preconds st net idx out_dir fs df item hdf hl hout
  simp only at hdl
  rw [existsPath_of_mem_dirs hpre, if_pos rfl] at hdl
  have hfs2files :
      (mkdir (rm_tree fs (out_dir ++ [item.id ++ ".PC"]))
        (out_dir ++ [item.id ++ ".PC"])).files =
      (rm_tree fs (out_dir ++ [item.id ++ ".PC"])).files :=
    mkdir_files _ _
  have hdirs2 : ∀ d, d ∈ (mkdir (rm_tree fs (out_dir ++ [item.id ++ ".PC"]))
      (out_dir ++ [item.id ++ ".PC"])).dirs →
      pathUnder (out_dir ++ [item.id ++ ".PC"]) d = true →
      d = out_dir ++ [item.id ++ ".PC"] := by
    intro d hd hunder
    rcases mem_mkdir_dirs hd with h1 | h2
    · exact absurd hunder (by rw [(mem_rm_tree_dirs h1).2]; simp)
    · exact h2
  cases hsig : sign_item net.sign net.head item with
  | error e =>
      rw [hsig] at hdl
      rw [hdl]
      refine ⟨mkdir_self_mem _ _, ?_, hdirs2⟩
      intro p n hp hunder
      rw [hfs2files] at hp
      exact absurd hunder (by rw [(mem_rm_tree_files hp).2]; simp)
  | ok signed =>
      rw [hsig] at hdl
      simp only at hdl
      rw [hdl]
      have hinv0 : FileInv (out_dir ++ [item.id ++ ".PC"])
          ⟨mkdir (rm_tree fs (out_dir ++ [item.id ++ ".PC"]))
            (out_dir ++ [item.id ++ ".PC"]), [], 0, []⟩ := by
        intro p n hp hunder
        rw [hfs2files] at hp
        exact absurd hunder (by rw [(mem_rm_tree_files hp).2]; simp)
      obtain ⟨hinv, hdirseq⟩ := download_loop_preserves_inv net
        (out_dir ++ [item.id ++ ".PC"]) (out_dir ++ [item.id ++ ".PC"])
        signed.assets _ hinv0
      refine ⟨?_, hinv, ?_⟩
      · rw [hdirseq]
        exact mkdir_self_mem _ _
      · intro d hd hunder
        rw [hdirseq] at hd
        exact hdirs2 d hd hunder

/-- Concrete item for the C2 witness scenario. -/
def itemA : Item := ⟨"A", [("b", ⟨"https://h/x/new.tif", "new"⟩)]⟩

/-- Concrete search table for the C2 witness scenario. -/
def dfA : List (String × Item) := [("i1", itemA)]

/-- Concrete client state for the C2 witness scenario. -/
def stA : DPState := ⟨some dfA⟩

/-- Concrete network oracle for the C2 witness scenario. -/
def netA : Net := ⟨fun s => s, fun _ => some 100, fun _ => ⟨true, 100⟩⟩

/-- Concrete filesystem for the C2 witness scenario: the target
directory `out/A.PC` already exists and holds a stale file. -/
def fsA : FS :=
  ⟨[["out"], ["out", "A.PC"]], [(["out", "A.PC", "old.tif"], 7)]⟩

/-- Witness for C2: downloading item `A` into `out` with a stale
`out/A.PC/old.tif` present leaves the target directory existing and the
stale file gone. -/
theorem download_recreates_item_dir_witness :
    ["out", "A.PC"] ∈ (download stA netA "i1" ["out"] fsA).fs.dirs ∧
    (["out", "A.PC", "old.tif"], 7) ∉ (download stA netA "i1" ["out"] fsA).fs.files := by
  have h := download_recreates_item_dir stA netA "i1" ["out"] fsA dfA itemA
    ["out", "A.PC"] rfl (by decide) (by decide) (by decide) (by decide)
  refine ⟨h.1, ?_⟩
  intro hmem
  have h2 := h.2.1 ["out", "A.PC", "old.tif"] 7 hmem (by decide)
  exact absurd h2 (by decide)

end DownPlanet
